import Mathlib

/-! Verification development for the X-Wing Monte Carlo combat simulator
(file xwing-monte-carlo.go, most evolved variant).

Shallow embedding conventions:
* Go int counters that are kept non-negative by explicit guards in the
  source (dice tallies, token counts, shields, die counts) are embedded as
  Nat; every subtraction in the source on these fields is guarded so that
  truncated subtraction coincides with Go integer subtraction.
* The hull field may genuinely go negative in the source, so it is
  embedded as Int.
* The global math/rand source is embedded as an explicit stream
  r : Nat -> Nat together with a position; a call rand.Int31n(k) at
  position pos is embedded as r pos % k, and the position advances by
  one per drawn value.  Die-roll functions (AttackDie, DefenseDie)
  become face maps applied to the stream.
* Ship pointers become explicit values threaded through the state; the
  lockedOnto pointer becomes an Option ShipId compared by id, which
  models Go pointer equality at the (distinct-ship) call sites.
-/

inductive Faction where
  | NEITHER
  | REBELS
  | EMPIRE
deriving DecidableEq, Repr

inductive DieResult where
  | BLANK
  | FOCUS
  | HIT
  | CRIT
  | EVADE
deriving DecidableEq, Repr

structure DiceResults where
  hits : Nat
  crits : Nat
  evades : Nat
  focuses : Nat
  blanks : Nat
deriving DecidableEq, Repr

def zeroDR : DiceResults := ⟨0, 0, 0, 0, 0⟩

/-- Sum of the five counts of a tally. -/
def sumDR (res : DiceResults) : Nat :=
  res.hits + res.crits + res.evades + res.focuses + res.blanks

/-- One iteration of the switch in the Go Roll: bump the count named by
the die result. -/
def addDie (d : DieResult) (res : DiceResults) : DiceResults :=
  match d with
  | .BLANK => { res with blanks := res.blanks + 1 }
  | .FOCUS => { res with focuses := res.focuses + 1 }
  | .HIT => { res with hits := res.hits + 1 }
  | .CRIT => { res with crits := res.crits + 1 }
  | .EVADE => { res with evades := res.evades + 1 }

/-- Embeds Roll(numDice, rollfunc) for a non-negative count: draw n dice
from the stream f starting at position pos and tally them. -/
def Roll : Nat → (Nat → DieResult) → Nat → DiceResults
  | 0, _, _ => zeroDR
  | n + 1, f, pos => addDie (f pos) (Roll n f (pos + 1))

/-- The Go Roll takes an int count; its loop (for i := 0; i < numDice; i++)
executes numDice.toNat iterations, so a negative count rolls nothing and
returns the zero tally normally. -/
def RollGo (numDice : Int) (f : Nat → DieResult) (pos : Nat) : DiceResults :=
  Roll numDice.toNat f pos

/-- Embeds DiceResults.Add: elementwise sum (the receiver accumulates the
other tally). -/
def DRadd (res other : DiceResults) : DiceResults :=
  ⟨res.hits + other.hits, res.crits + other.crits, res.evades + other.evades,
   res.focuses + other.focuses, res.blanks + other.blanks⟩

/-- Embeds RerollBlanks: replace all blanks with fresh rolls.  Returns the
new tally and the stream position after the rerolled dice. -/
def RerollBlanksP (res : DiceResults) (f : Nat → DieResult) (pos : Nat) :
    DiceResults × Nat :=
  if res.blanks = 0 then (res, pos)
  else (DRadd { res with blanks := 0 } (Roll res.blanks f pos), pos + res.blanks)

/-- Embeds RerollOneBlank: replace exactly one blank with a fresh roll. -/
def RerollOneBlankP (res : DiceResults) (f : Nat → DieResult) (pos : Nat) :
    DiceResults × Nat :=
  if res.blanks = 0 then (res, pos)
  else (DRadd { res with blanks := res.blanks - 1 } (Roll 1 f pos), pos + 1)

/-- Embeds RerollBlanksAndFocuses: replace all blanks and focuses with
fresh rolls. -/
def RerollBlanksAndFocusesP (res : DiceResults) (f : Nat → DieResult) (pos : Nat) :
    DiceResults × Nat :=
  if res.blanks = 0 ∧ res.focuses = 0 then (res, pos)
  else (DRadd { res with blanks := 0, focuses := 0 }
          (Roll (res.blanks + res.focuses) f pos),
        pos + (res.blanks + res.focuses))

/-- Embeds RerollOneBlankOrFocus: replace one blank if any, else one
focus. -/
def RerollOneBlankOrFocusP (res : DiceResults) (f : Nat → DieResult) (pos : Nat) :
    DiceResults × Nat :=
  if res.blanks = 0 ∧ res.focuses = 0 then (res, pos)
  else if 0 < res.blanks then RerollOneBlankP res f pos
  else (DRadd { res with focuses := res.focuses - 1 } (Roll 1 f pos), pos + 1)

/-- Embeds SpendFocus(onWhat): convert focuses to hits (mode attack) or
evades (mode defense); any other argument just zeroes the focus count
(the Go switch has no default case, but the focus count is zeroed
regardless). -/
def SpendFocus (onWhat : String) (res : DiceResults) : DiceResults :=
  if onWhat = "attack" then
    { res with hits := res.hits + res.focuses, focuses := 0 }
  else if onWhat = "defense" then
    { res with evades := res.evades + res.focuses, focuses := 0 }
  else { res with focuses := 0 }

/-- Embeds AttackDie: face space below 8 mapped 2/2/3/1 to
BLANK/FOCUS/HIT/CRIT. -/
def AttackDieFace (face : Nat) : DieResult :=
  if face < 2 then .BLANK
  else if face < 4 then .FOCUS
  else if face < 7 then .HIT
  else .CRIT

/-- Embeds DefenseDie: face space below 8 mapped 3/2/3 to
BLANK/FOCUS/EVADE. -/
def DefenseDieFace (face : Nat) : DieResult :=
  if face < 3 then .BLANK
  else if face < 5 then .FOCUS
  else .EVADE

/-- The attack-die stream induced by the raw random stream r. -/
def attackDieF (r : Nat → Nat) : Nat → DieResult :=
  fun pos => AttackDieFace (r pos % 8)

/-- The defense-die stream induced by the raw random stream r. -/
def defenseDieF (r : Nat → Nat) : Nat → DieResult :=
  fun pos => DefenseDieFace (r pos % 8)

/-- Ship identity: faction plus index into the squadron list of that
faction.  Stands in for the Go pointer to a Ship. -/
abbrev ShipId := Faction × Nat

structure Ship where
  name : String := ""
  faction : Faction := .NEITHER
  skill : Nat := 0
  attack : Nat := 0
  defense : Nat := 0
  hull : Int := 0
  shields : Nat := 0
  focusTokens : Nat := 0
  evadeTokens : Nat := 0
  lockedOnto : Option ShipId := none
  hasHowlrunnerReroll : Bool := false
  providesHowlrunnerReroll : Bool := false
  isDestroyed : Bool := false
deriving DecidableEq, Repr

/-- Embeds Ship.CleanUp: zero both token counts. -/
def CleanUp (s : Ship) : Ship := { s with focusTokens := 0, evadeTokens := 0 }

/-- Embeds Ship.Focus: gain one focus token. -/
def Focus (s : Ship) : Ship := { s with focusTokens := s.focusTokens + 1 }

/-- Embeds Ship.Evade: gain one evade token. -/
def Evade (s : Ship) : Ship := { s with evadeTokens := s.evadeTokens + 1 }

/-- Embeds Ship.AcquireTargetLock. -/
def AcquireTargetLock (s : Ship) (tid : ShipId) : Ship :=
  { s with lockedOnto := some tid }

/-- Embeds Ship.SpendTargetLock. -/
def SpendTargetLock (s : Ship) : Ship := { s with lockedOnto := none }

/-- Lines 201-224 of Attack: the reroll decision of the attacker.  Returns
the (possibly lock-cleared) attacker, the new tally, and the stream
position. -/
def attackRerollPhase (ship : Ship) (tid : ShipId) (res : DiceResults)
    (f : Nat → DieResult) (pos : Nat) : Ship × DiceResults × Nat :=
  if ship.focusTokens = 0 then
    if 0 < res.blanks ∧ ship.lockedOnto = some tid then
      (SpendTargetLock ship, (RerollBlanksAndFocusesP res f pos).1,
       (RerollBlanksAndFocusesP res f pos).2)
    else if ship.hasHowlrunnerReroll ∧ (0 < res.blanks ∨ 0 < res.focuses) then
      (ship, (RerollOneBlankOrFocusP res f pos).1, (RerollOneBlankOrFocusP res f pos).2)
    else (ship, res, pos)
  else if 0 < res.blanks then
    if ship.lockedOnto = some tid then
      (SpendTargetLock ship, (RerollBlanksP res f pos).1, (RerollBlanksP res f pos).2)
    else if ship.hasHowlrunnerReroll then
      (ship, (RerollOneBlankP res f pos).1, (RerollOneBlankP res f pos).2)
    else (ship, res, pos)
  else (ship, res, pos)

/-- Lines 225-229 of Attack: burn one attacker focus token if the tally
still shows focuses. -/
def attackFocusSpend (ship : Ship) (res : DiceResults) : Ship × DiceResults :=
  if 0 < res.focuses ∧ 0 < ship.focusTokens then
    ({ ship with focusTokens := ship.focusTokens - 1 }, SpendFocus ("attack") res)
  else (ship, res)

/-- Lines 199-230 of Attack: roll the attack pool, reroll, spend focus.
Returns the updated attacker, the final attack tally, and the stream
position. -/
def attackPhase (ship : Ship) (tid : ShipId) (r : Nat → Nat) (pos : Nat) :
    Ship × DiceResults × Nat :=
  let roll0 := Roll ship.attack (attackDieF r) pos
  let rrp := attackRerollPhase ship tid roll0 (attackDieF r) (pos + ship.attack)
  let fsp := attackFocusSpend rrp.1 rrp.2.1
  (fsp.1, fsp.2, rrp.2.2)

/-- Lines 242-246 of Attack: burn one defender focus token if the defense
tally still shows focuses. -/
def defenseFocusSpend (t : Ship) (res : DiceResults) : Ship × DiceResults :=
  if 0 < res.focuses ∧ 0 < t.focusTokens then
    ({ t with focusTokens := t.focusTokens - 1 }, SpendFocus ("defense") res)
  else (t, res)

/-- Lines 252-259 of Attack: the evade-token loop
(for ; target.evadeTokens > 0; target.evadeTokens--).  Returns the final
token count, the final evade count, and whether the loop exited through
the early return.  Note the Go post statement (the decrement) is skipped
when the body exits via return, so on the early exit the token count is
NOT decremented for the spend that just happened. -/
def evadeLoop : Nat → Nat → Nat → Nat × Nat × Bool
  | 0, ev, _ => (0, ev, false)
  | t + 1, ev, totalHits =>
    if totalHits ≤ ev + 1 then (t + 1, ev + 1, true)
    else evadeLoop t (ev + 1) totalHits

/-- Lines 294-303 of Attack: each surviving crit deals 2 hull damage with
probability 7/33 (a direct hit), else 1; one random draw per crit. -/
def critLoop : Nat → Int → (Nat → Nat) → Nat → Int × Nat
  | 0, hull, _, pos => (hull, pos)
  | c + 1, hull, r, pos =>
    if r pos % 33 < 7 then critLoop c (hull - 2) r (pos + 1)
    else critLoop c (hull - 1) r (pos + 1)

/-- Lines 261-308 of Attack: cancellation, shield absorption, hull damage,
destruction check.  The defEvades argument is the evade count of the
defense tally as the evade loop left it. -/
def damagePhase (target : Ship) (atk : DiceResults) (defEvades : Nat)
    (r : Nat → Nat) (pos : Nat) : Ship × Nat :=
  let hitsCanceled := min atk.hits defEvades
  let hits1 := atk.hits - hitsCanceled
  let ev1 := defEvades - hitsCanceled
  let critsCanceled := min atk.crits ev1
  let crits1 := atk.crits - critsCanceled
  let shieldDamage := min hits1 target.shields
  let hits2 := hits1 - shieldDamage
  let shields1 := target.shields - shieldDamage
  let crits2 := if hits2 = 0 ∧ 0 < shields1 then crits1 - min crits1 shields1 else crits1
  let shields2 := if hits2 = 0 ∧ 0 < shields1 then shields1 - min crits1 shields1 else shields1
  let hull1 := if 0 < hits2 then target.hull - (hits2 : Int) else target.hull
  let cl := critLoop crits2 hull1 r pos
  let destroyed := if cl.1 < 1 then true else target.isDestroyed
  ({ target with shields := shields2, hull := cl.1, isDestroyed := destroyed }, cl.2)

/-- Lines 232-308 of Attack: the defense side.  The first argument is the
attacker after its own phases (returned untouched on every path), the
second the final attack tally. -/
def defend (ship2 : Ship) (res2 : DiceResults) (target : Ship) (r : Nat → Nat)
    (pos : Nat) : Ship × Ship × Nat :=
  let totalHits := res2.hits + res2.crits
  let defRoll := Roll target.defense (defenseDieF r) pos
  let pos1 := pos + target.defense
  if totalHits ≤ defRoll.evades then (ship2, target, pos1)
  else
    let fsp := defenseFocusSpend target defRoll
    if totalHits ≤ fsp.2.evades then (ship2, fsp.1, pos1)
    else
      let el := evadeLoop fsp.1.evadeTokens fsp.2.evades totalHits
      let t2 := { fsp.1 with evadeTokens := el.1 }
      if el.2.2 then (ship2, t2, pos1)
      else
        let dp := damagePhase t2 res2 el.2.1 r pos1
        (ship2, dp.1, dp.2)

/-- Embeds Ship.Attack(target): full attack resolution.  The tid argument
is the identity of the target (models the Go pointer compared against
lockedOnto).  Returns attacker, target and stream position after the
resolution; attacker and target are distinct ships at every call site,
matching the value-passing embedding. -/
def Attack (ship target : Ship) (tid : ShipId) (r : Nat → Nat) (pos : Nat) :
    Ship × Ship × Nat :=
  let ap := attackPhase ship tid r pos
  defend ap.1 ap.2.1 target r ap.2.2

structure MatchResult where
  winner : Faction
  shipsRemaining : Nat
deriving DecidableEq, Repr

structure MatchState where
  rebels : List Ship
  empires : List Ship
deriving DecidableEq, Repr

def getShip (m : MatchState) (id : ShipId) : Option Ship :=
  match id.1 with
  | .REBELS => m.rebels.get? id.2
  | .EMPIRE => m.empires.get? id.2
  | .NEITHER => none

def setShip (m : MatchState) (id : ShipId) (s : Ship) : MatchState :=
  match id.1 with
  | .REBELS => { m with rebels := m.rebels.set id.2 s }
  | .EMPIRE => { m with empires := m.empires.set id.2 s }
  | .NEITHER => m

/-- Lines 350-356: a squad reroll is available while some empire ship that
provides it is alive. -/
def howlAvailable (emp : List Ship) : Bool :=
  emp.any fun s => s.providesHowlrunnerReroll && !s.isDestroyed

/-- Indices of list entries satisfying p. -/
def idxWhere (l : List Ship) (p : Ship → Bool) : List Nat :=
  (List.range l.length).filter fun i =>
    match l.get? i with
    | some s => p s
    | none => false

/-- Lines 350-373: at one priority level, propagate the squad-reroll flag
to eligible non-granting empire ships and gather the combatant ids:
all eligible rebels first, then all eligible imperials. -/
def gatherLevel (m : MatchState) (ps : Nat) : MatchState × List ShipId :=
  let howl := howlAvailable m.empires
  let rebelIds := (idxWhere m.rebels fun s => s.skill == ps && !s.isDestroyed).map
    fun i => ((Faction.REBELS, i) : ShipId)
  let empires' := m.empires.map fun s =>
    if s.skill == ps && !s.isDestroyed && !s.providesHowlrunnerReroll then
      { s with hasHowlrunnerReroll := howl }
    else s
  let empireIds := (idxWhere empires' fun s => s.skill == ps && !s.isDestroyed).map
    fun i => ((Faction.EMPIRE, i) : ShipId)
  ({ m with empires := empires' }, rebelIds ++ empireIds)

/-- Index of the first non-destroyed ship (target search, lines 387-392). -/
def firstAliveIdx : List Ship → Option Nat
  | [] => none
  | s :: rest => if s.isDestroyed then (firstAliveIdx rest).map (· + 1) else some 0

def enemyFaction : Faction → Faction
  | .REBELS => .EMPIRE
  | .EMPIRE => .REBELS
  | .NEITHER => .NEITHER

/-- The opposing squadron (lines 381-386).  A NEITHER-faction ship would
dereference a nil squadron pointer in Go; no ship in any driven match has
faction NEITHER, and the embedding returns the empty list there. -/
def enemiesOf (m : MatchState) : Faction → List Ship
  | .REBELS => m.empires
  | .EMPIRE => m.rebels
  | .NEITHER => []

/-- Lines 377-400, the turn of one combatant: choose the target (first
surviving enemy), run the pre-attack action hook on the combatant, then
attack if a target exists.  The current state of the combatant is re-read
from the match, so damage and token spends from earlier activations are
visible. -/
def activate (act : Ship → Ship) (r : Nat → Nat) (mp : MatchState × Nat)
    (id : ShipId) : MatchState × Nat :=
  match getShip mp.1 id with
  | none => mp
  | some ship =>
    let tIdx := firstAliveIdx (enemiesOf mp.1 ship.faction)
    let ship' := act ship
    let m1 := setShip mp.1 id ship'
    match tIdx with
    | none => (m1, mp.2)
    | some ti =>
      let tid : ShipId := (enemyFaction ship.faction, ti)
      match getShip m1 tid with
      | none => (m1, mp.2)
      | some tgt =>
        let atk := Attack ship' tgt tid r mp.2
        (setShip (setShip m1 id atk.1) tid atk.2.1, atk.2.2)

def runLevel (act : Ship → Ship) (r : Nat → Nat) (ids : List ShipId)
    (mp : MatchState × Nat) : MatchState × Nat :=
  ids.foldl (activate act r) mp

/-- The priority loop (for ps := 12; ps > -1; ps--). -/
def psLevels : List Nat := [12, 11, 10, 9, 8, 7, 6, 5, 4, 3, 2, 1, 0]

def aliveCount (l : List Ship) : Nat := l.countP fun s => !s.isDestroyed

/-- Lines 403-433: survivor counts and the terminal check. -/
def roundResult (m : MatchState) : Option MatchResult :=
  let nr := aliveCount m.rebels
  let ni := aliveCount m.empires
  if 0 < nr ∧ 0 < ni then none
  else if 0 < nr then some ⟨.REBELS, nr⟩
  else if 0 < ni then some ⟨.EMPIRE, ni⟩
  else some ⟨.NEITHER, 0⟩

/-- Embeds Match.PerformCombatRound: one full combat round.  Note no token
cleanup of any kind happens here. -/
def performCombatRound (act : Ship → Ship) (r : Nat → Nat) (m : MatchState)
    (pos : Nat) : MatchState × Nat × Option MatchResult :=
  let fp := psLevels.foldl
    (fun mp ps =>
      let gl := gatherLevel mp.1 ps
      runLevel act r gl.2 (gl.1, mp.2))
    (m, pos)
  (fp.1, fp.2, roundResult fp.1)

/-- One iteration of the Play loop, keeping state and stream position. -/
def playStep (act : Ship → Ship) (r : Nat → Nat) (mp : MatchState × Nat) :
    MatchState × Nat :=
  ((performCombatRound act r mp.1 mp.2).1, (performCombatRound act r mp.1 mp.2).2.1)

/-- Match state after n rounds of the Play loop. -/
def playSteps (act : Ship → Ship) (r : Nat → Nat) (mp : MatchState × Nat) :
    Nat → MatchState × Nat
  | 0 => mp
  | n + 1 => playStep act r (playSteps act r mp n)

/-- The result produced by round n + 1 of the Play loop. -/
def roundResultAt (act : Ship → Ship) (r : Nat → Nat) (mp : MatchState × Nat)
    (n : Nat) : Option MatchResult :=
  (performCombatRound act r (playSteps act r mp n).1 (playSteps act r mp n).2).2.2

/-- Play terminates iff its loop eventually sees a non-nil round result. -/
def PlayTerminates (act : Ship → Ship) (r : Nat → Nat) (mp : MatchState × Nat) :
    Prop :=
  ∃ n, (roundResultAt act r mp n).isSome

/-- The driver pre-attack action hook (focusAction in main). -/
def focusAction : Ship → Ship := Focus

/-- A pre-attack action hook that does nothing. -/
def noAction : Ship → Ship := fun s => s

/-- The all-zeros random stream. -/
def r0 : Nat → Nat := fun _ => 0

/-- The constant-4 random stream: every attack-die face is 4 (a HIT). -/
def r4 : Nat → Nat := fun _ => 4

/-- The constant-7 random stream: attack faces are CRITs and the
direct-hit check (7 % 33 < 7) fails. -/
def r7 : Nat → Nat := fun _ => 7

/-- A die stream that always rolls HIT. -/
def fHIT : Nat → DieResult := fun _ => DieResult.HIT

/-- A ship with every field at its Go zero value. -/
def calmShip : Ship := {}

def shipA3 : Ship := { name := "A", faction := .REBELS, attack := 1, hull := 3 }
def shipD3 : Ship := { name := "D", faction := .EMPIRE, hull := 5, evadeTokens := 1 }

def target4 : Ship := { hull := 5 }
def target4s : Ship := { hull := 5, shields := 2 }

def shipR1 : Ship := { name := "R", faction := .REBELS, skill := 1, hull := 1 }
def shipE1 : Ship := { name := "E", faction := .EMPIRE, skill := 1, hull := 1 }

/-- A match whose ships roll no dice: no attack ever lands. -/
def passiveMatch : MatchState := ⟨[shipR1], [shipE1]⟩

def shipR2 : Ship := { name := "R", faction := .REBELS, skill := 5, attack := 1, hull := 10 }
def shipE2 : Ship := { name := "E", faction := .EMPIRE, skill := 5, attack := 1, hull := 1 }

/-- Two ships at the same priority level; with the all-4 stream every
attack die is a HIT, so the rebel one-shots the imperial before the
imperial activation in the same level. -/
def levelMatch : MatchState := ⟨[shipR2], [shipE2]⟩

def wreckShip : Ship := { name := "W", faction := .REBELS, isDestroyed := true }
def wreckMatch : MatchState := ⟨[wreckShip], []⟩

/-- Spec-side damage resolution, written from the words of the spec:
cancel hits then crits against evades; absorb remaining hits then
remaining crits on shields, never exceeding the shield count; apply
leftover hits and then leftover crits (with the direct-hit check) to the
hull; set the destroyed flag if hull drops below 1. -/
def damageSpecOrder (target : Ship) (atk : DiceResults) (defEvades : Nat)
    (r : Nat → Nat) (pos : Nat) : Ship × Nat :=
  let hitsCanceled := min atk.hits defEvades
  let hits1 := atk.hits - hitsCanceled
  let ev1 := defEvades - hitsCanceled
  let critsCanceled := min atk.crits ev1
  let crits1 := atk.crits - critsCanceled
  let hitAbsorb := min hits1 target.shields
  let afterHits := target.shields - hitAbsorb
  let critAbsorb := min crits1 afterHits
  let shieldsLeft := afterHits - critAbsorb
  let hullHits := hits1 - hitAbsorb
  let critsLeft := crits1 - critAbsorb
  let hull1 := target.hull - (hullHits : Int)
  let cl := critLoop critsLeft hull1 r pos
  let destroyed := if cl.1 < 1 then true else target.isDestroyed
  ({ target with shields := shieldsLeft, hull := cl.1, isDestroyed := destroyed }, cl.2)

/-- Spec-side reroll decision, written from the four prioritized, mutually
exclusive branches of the claim. -/
def attackRerollSpec (ship : Ship) (tid : ShipId) (res : DiceResults)
    (f : Nat → DieResult) (pos : Nat) : Ship × DiceResults × Nat :=
  if ship.focusTokens = 0 ∧ 0 < res.blanks ∧ ship.lockedOnto = some tid then
    (SpendTargetLock ship, (RerollBlanksAndFocusesP res f pos).1,
     (RerollBlanksAndFocusesP res f pos).2)
  else if ship.focusTokens = 0 ∧ (0 < res.blanks ∨ 0 < res.focuses) ∧
      ship.hasHowlrunnerReroll then
    (ship, (RerollOneBlankOrFocusP res f pos).1, (RerollOneBlankOrFocusP res f pos).2)
  else if 0 < ship.focusTokens ∧ 0 < res.blanks ∧ ship.lockedOnto = some tid then
    (SpendTargetLock ship, (RerollBlanksP res f pos).1, (RerollBlanksP res f pos).2)
  else if 0 < ship.focusTokens ∧ 0 < res.blanks ∧ ship.hasHowlrunnerReroll then
    (ship, (RerollOneBlankP res f pos).1, (RerollOneBlankP res f pos).2)
  else (ship, res, pos)

/-- Destruction is preserved between two ship states. -/
def relD (s s' : Ship) : Prop := s.isDestroyed = true → s'.isDestroyed = true

/-- Pointwise destruction-monotonicity between two ship lists. -/
def listMonoD (l l' : List Ship) : Prop :=
  l.length = l'.length ∧
  ∀ i s s', l.get? i = some s → l'.get? i = some s' → relD s s'

/-- Destruction-monotonicity between two match states. -/
def matchMonoD (m m' : MatchState) : Prop :=
  listMonoD m.rebels m'.rebels ∧ listMonoD m.empires m'.empires

lemma sumDR_addDie (d : DieResult) (res : DiceResults) :
    sumDR (addDie d res) = sumDR res + 1 := by
  cases d <;> simp [addDie, sumDR] <;> omega

lemma sumDR_Roll (n : Nat) (f : Nat → DieResult) (pos : Nat) :
    sumDR (Roll n f pos) = n := by
  induction n generalizing pos with
  | zero => rfl
  | succ k ih => rw [Roll, sumDR_addDie, ih]

lemma sumDR_DRadd (a b : DiceResults) : sumDR (DRadd a b) = sumDR a + sumDR b := by
  simp [DRadd, sumDR]; try omega

/-- Claim C7 (amended): every Roll tally sums to the die count (the five
counts are non-negative by the Nat embedding, mirroring the guarded Go
code), each reroll operation preserves the sum of the five counts, and
SpendFocus preserves it for its two used modes, attack and defense. -/
theorem c7_sum_invariant :
    (∀ n f pos, sumDR (Roll n f pos) = n) ∧
    (∀ res f pos, sumDR (RerollBlanksP res f pos).1 = sumDR res) ∧
    (∀ res f pos, sumDR (RerollOneBlankP res f pos).1 = sumDR res) ∧
    (∀ res f pos, sumDR (RerollBlanksAndFocusesP res f pos).1 = sumDR res) ∧
    (∀ res f pos, sumDR (RerollOneBlankOrFocusP res f pos).1 = sumDR res) ∧
    (∀ res, sumDR (SpendFocus ("attack") res) = sumDR res) ∧
    (∀ res, sumDR (SpendFocus ("defense") res) = sumDR res) := by
  refine ⟨sumDR_Roll, ?_, ?_, ?_, ?_, ?_, ?_⟩
  · intro res f pos
    unfold RerollBlanksP
    split_ifs with h
    · rfl
    · rw [sumDR_DRadd, sumDR_Roll]; simp [sumDR]; try omega
  · intro res f pos
    unfold RerollOneBlankP
    split_ifs with h
    · rfl
    · rw [sumDR_DRadd, sumDR_Roll]; simp [sumDR]; try omega
  · intro res f pos
    unfold RerollBlanksAndFocusesP
    split_ifs with h
    · rfl
    · rw [sumDR_DRadd, sumDR_Roll]; simp [sumDR]; try omega
  · intro res f pos
    unfold RerollOneBlankOrFocusP
    split_ifs with h h2
    · rfl
    · unfold RerollOneBlankP
      split_ifs with h3
      · rfl
      · rw [sumDR_DRadd, sumDR_Roll]; simp [sumDR]; try omega
    · have hb : res.blanks = 0 := by omega
      have hf : res.focuses ≠ 0 := fun hc => h ⟨hb, hc⟩
      rw [sumDR_DRadd, sumDR_Roll]; simp [sumDR]; try omega
  · intro res
    unfold SpendFocus
    split_ifs with h h2
    · simp [sumDR]; try omega
    · exact absurd rfl h
    · exact absurd rfl h
  · intro res
    unfold SpendFocus
    split_ifs with h1 h2
    · exact absurd h1 (by decide)
    · simp [sumDR]; try omega
    · exact absurd rfl h2

/-- Claim C7 counterexample: SpendFocus called with a string other than
attack or defense zeroes the focus count without converting it, so the
sum of the five counts drops: the claim as stated (SpendFocus preserves
the sum) is false. -/
theorem c7_spendfocus_drops_sum :
    sumDR (SpendFocus ("cleanse") ⟨0, 0, 0, 1, 0⟩) = 0 ∧
    sumDR (⟨0, 0, 0, 1, 0⟩ : DiceResults) = 1 := by decide

/-- Claim C9 (amended): Roll with a non-positive die count runs its loop
zero times and returns the all-zero tally as a normal result; no fault
occurs. -/
theorem c9_negative_roll (n : Int) (f : Nat → DieResult) (pos : Nat)
    (h : n ≤ 0) : RollGo n f pos = zeroDR := by
  unfold RollGo
  rw [Int.toNat_of_nonpos h]
  rfl

theorem c9_negative_roll_witness :
    (-5 : Int) ≤ 0 ∧ RollGo (-5) fHIT 0 = zeroDR :=
  ⟨by decide, c9_negative_roll (-5) fHIT 0 (by decide)⟩

/-- Claim C9 counterexample: Roll with count -3 returns the ordinary
all-zero DiceResults, identical to rolling zero dice: a negative die
count is not treated as a fatal fault and a normal result IS returned. -/
theorem c9_negative_roll_returns_normally :
    RollGo (-3) fHIT 0 = zeroDR ∧ RollGo 0 fHIT 0 = zeroDR := by decide

/-- Claim C3: evaluation at the failing input.  The defender holds one
evade token, the attack has one total hit, and the defense roll shows no
evades: the evade loop adds one evade and exits through the early return,
which skips the Go for-loop post statement, so the token count is NOT
decremented.  The defender comes back from Attack completely unchanged,
still holding the token it just spent. -/
theorem c3_evade_token_not_consumed :
    (Attack shipA3 shipD3 (Faction.EMPIRE, 0) r4 0).2.1 = shipD3 ∧
    evadeLoop 1 0 1 = (1, 1, true) := by decide

/-- Claim C6: if the natural defense roll of the defender already shows at
least totalHits evades, Attack returns the defender completely unchanged —
hull, shields, focus tokens and evade tokens included — and no defender
token is spent.  (A totalHits of 0 satisfies the hypothesis trivially
since evade counts are non-negative.) -/
theorem c6_natural_evade (ship target : Ship) (tid : ShipId) (r : Nat → Nat)
    (pos : Nat)
    (h : (attackPhase ship tid r pos).2.1.hits + (attackPhase ship tid r pos).2.1.crits ≤
      (Roll target.defense (defenseDieF r) (attackPhase ship tid r pos).2.2).evades) :
    (Attack ship target tid r pos).2.1 = target := by
  simp only [Attack, defend]
  rw [if_pos h]

theorem c6_natural_evade_witness :
    (Attack calmShip calmShip (Faction.EMPIRE, 0) r0 0).2.1 = calmShip :=
  c6_natural_evade calmShip calmShip (Faction.EMPIRE, 0) r0 0 (by decide)

/-- Claim C5: the reroll decision of the attacker is exactly the
four-branch priority chain of the claim (lock with no focus, squad bonus
with no focus, lock with focus, squad bonus with focus), at most one
branch fires, the lock is cleared exactly in the two lock branches, and
the single blank-or-focus reroll prefers a blank. -/
theorem c5_reroll_priority :
    (∀ ship tid res f pos,
      attackRerollPhase ship tid res f pos = attackRerollSpec ship tid res f pos) ∧
    (∀ res f pos, 0 < res.blanks →
      RerollOneBlankOrFocusP res f pos = RerollOneBlankP res f pos) := by
  constructor
  · intro ship tid res f pos
    unfold attackRerollPhase attackRerollSpec
    have hiff : ¬ ship.focusTokens = 0 ↔ 0 < ship.focusTokens := by omega
    split_ifs <;> first | rfl | tauto
  · intro res f pos h
    unfold RerollOneBlankOrFocusP
    rw [if_neg (fun hc => by omega), if_pos h]

theorem c5_reroll_priority_witness :
    RerollOneBlankOrFocusP ⟨0, 0, 0, 0, 1⟩ fHIT 0 = RerollOneBlankP ⟨0, 0, 0, 0, 1⟩ fHIT 0 :=
  c5_reroll_priority.2 ⟨0, 0, 0, 0, 1⟩ fHIT 0 (by decide)

/-- Claim C4: the damage phase resolves in the fixed order the claim
states.  The guarded crit-on-shields branch of the code equals the
spec-side formulation (absorb hits then crits, never exceeding the shield
count), and the two quoted examples hold: attack hits=2, crits=1 against
defense evades=2 applies 0 hits and 1 crit (here a non-direct crit, so
hull 5 drops to 4 and shields stay 0), and a defender with shields=2
taking 3 uncancelled hits loses 2 shields and exactly 1 hull. -/
theorem c4_damage_order :
    (∀ t atk ev r pos, damagePhase t atk ev r pos = damageSpecOrder t atk ev r pos) ∧
    (damagePhase target4 ⟨2, 1, 0, 0, 0⟩ 2 r7 0).1.hull = 4 ∧
    (damagePhase target4 ⟨2, 1, 0, 0, 0⟩ 2 r7 0).1.shields = 0 ∧
    (damagePhase target4s ⟨3, 0, 0, 0, 0⟩ 0 r7 0).1.shields = 0 ∧
    (damagePhase target4s ⟨3, 0, 0, 0, 0⟩ 0 r7 0).1.hull = 4 := by
  refine ⟨?_, by decide, by decide, by decide, by decide⟩
  intro t atk ev r pos
  simp only [damagePhase, damageSpecOrder]
  have hhull : ∀ (k : Nat),
      (if 0 < k then t.hull - (k : Int) else t.hull) = t.hull - (k : Int) := by
    intro k
    split_ifs with hk
    · rfl
    · omega
  rw [hhull]
  by_cases hc : (atk.hits - min atk.hits ev) - min (atk.hits - min atk.hits ev) t.shields = 0 ∧
      0 < t.shields - min (atk.hits - min atk.hits ev) t.shields
  · rw [if_pos hc, if_pos hc]
  · rw [if_neg hc, if_neg hc]
    have hz : t.shields - min (atk.hits - min atk.hits ev) t.shields = 0 := by omega
    rw [hz]
    simp

lemma defend_fst (s : Ship) (res : DiceResults) (t : Ship) (r : Nat → Nat)
    (pos : Nat) : (defend s res t r pos).1 = s := by
  simp only [defend]
  split_ifs <;> rfl

lemma attackRerollPhase_fst (ship : Ship) (tid : ShipId) (res : DiceResults)
    (f : Nat → DieResult) (pos : Nat) :
    (attackRerollPhase ship tid res f pos).1 = ship ∨
    (attackRerollPhase ship tid res f pos).1 = SpendTargetLock ship := by
  simp only [attackRerollPhase]
  split_ifs <;> first | exact Or.inl rfl | exact Or.inr rfl

lemma attackFocusSpend_fst (ship : Ship) (res : DiceResults) :
    (attackFocusSpend ship res).1 = ship ∨
    (attackFocusSpend ship res).1 = { ship with focusTokens := ship.focusTokens - 1 } := by
  simp only [attackFocusSpend]
  split_ifs <;> first | exact Or.inl rfl | exact Or.inr rfl

/-- Claim C10: Attack never modifies the hull, shields, destroyed flag,
evade tokens, identity, stats or squad-reroll flags of the attacker: of
the attacker fields only the focus-token count and the lock reference can
change, and all damage falls on the (distinct) target. -/
theorem c10_attacker_frame (ship target : Ship) (tid : ShipId) (r : Nat → Nat)
    (pos : Nat) :
    (Attack ship target tid r pos).1.hull = ship.hull ∧
    (Attack ship target tid r pos).1.shields = ship.shields ∧
    (Attack ship target tid r pos).1.isDestroyed = ship.isDestroyed ∧
    (Attack ship target tid r pos).1.evadeTokens = ship.evadeTokens ∧
    (Attack ship target tid r pos).1.name = ship.name ∧
    (Attack ship target tid r pos).1.faction = ship.faction ∧
    (Attack ship target tid r pos).1.skill = ship.skill ∧
    (Attack ship target tid r pos).1.attack = ship.attack ∧
    (Attack ship target tid r pos).1.defense = ship.defense ∧
    (Attack ship target tid r pos).1.hasHowlrunnerReroll = ship.hasHowlrunnerReroll ∧
    (Attack ship target tid r pos).1.providesHowlrunnerReroll = ship.providesHowlrunnerReroll := by
  have hA : (Attack ship target tid r pos).1 =
      (attackFocusSpend (attackRerollPhase ship tid
        (Roll ship.attack (attackDieF r) pos) (attackDieF r) (pos + ship.attack)).1
        (attackRerollPhase ship tid (Roll ship.attack (attackDieF r) pos)
          (attackDieF r) (pos + ship.attack)).2.1).1 := by
    simp only [Attack, attackPhase]
    exact defend_fst _ _ _ _ _
  rw [hA]
  rcases attackFocusSpend_fst (attackRerollPhase ship tid
      (Roll ship.attack (attackDieF r) pos) (attackDieF r) (pos + ship.attack)).1
      (attackRerollPhase ship tid (Roll ship.attack (attackDieF r) pos)
        (attackDieF r) (pos + ship.attack)).2.1 with h2 | h2 <;>
    rcases attackRerollPhase_fst ship tid (Roll ship.attack (attackDieF r) pos)
      (attackDieF r) (pos + ship.attack) with h1 | h1 <;>
    rw [h2, h1] <;> simp [SpendTargetLock]

lemma listMonoD_refl (l : List Ship) : listMonoD l l := by
  refine ⟨rfl, fun i s s' h1 h2 hd => ?_⟩
  rw [h1] at h2
  injection h2 with he
  rw [← he]
  exact hd

lemma listMonoD_trans {a b c : List Ship} (h1 : listMonoD a b) (h2 : listMonoD b c) :
    listMonoD a c := by
  refine ⟨h1.1.trans h2.1, fun i s s' ha hc hd => ?_⟩
  have hlt : i < b.length := by
    obtain ⟨hlt, _⟩ := List.get?_eq_some.mp ha
    rw [← h1.1]
    exact hlt
  cases hb : b.get? i with
  | none => exact absurd (List.get?_eq_none.mp hb) (by omega)
  | some mid => exact h2.2 i mid s' hb hc (h1.2 i s mid ha hb hd)

lemma matchMonoD_refl (m : MatchState) : matchMonoD m m :=
  ⟨listMonoD_refl _, listMonoD_refl _⟩

lemma matchMonoD_trans {a b c : MatchState} (h1 : matchMonoD a b)
    (h2 : matchMonoD b c) : matchMonoD a c :=
  ⟨listMonoD_trans h1.1 h2.1, listMonoD_trans h1.2 h2.2⟩

lemma listMonoD_set (l : List Ship) (i : Nat) (x : Ship)
    (h : ∀ y, l.get? i = some y → relD y x) : listMonoD l (l.set i x) := by
  refine ⟨(List.length_set l i x).symm, fun j s s' h1 h2 hd => ?_⟩
  by_cases hij : i = j
  · subst hij
    have h2' : some x = some s' := by
      rw [← h2, List.get?_set_eq, h1]
      rfl
    injection h2' with he
    rw [← he]
    exact h s h1 hd
  · rw [List.get?_set_ne x l hij] at h2
    rw [h1] at h2
    injection h2 with he
    rw [← he]
    exact hd

lemma matchMonoD_setShip (m : MatchState) (id : ShipId) (x : Ship)
    (h : ∀ y, getShip m id = some y → relD y x) :
    matchMonoD m (setShip m id x) := by
  obtain ⟨f, i⟩ := id
  cases f with
  | NEITHER => exact matchMonoD_refl m
  | REBELS => exact ⟨listMonoD_set _ _ _ h, listMonoD_refl _⟩
  | EMPIRE => exact ⟨listMonoD_refl _, listMonoD_set _ _ _ h⟩

lemma getShip_setShip_self (m : MatchState) (id : ShipId) (x y : Ship)
    (h : getShip m id = some y) : getShip (setShip m id x) id = some x := by
  obtain ⟨f, i⟩ := id
  cases f <;> simp only [getShip, setShip] at h ⊢
  · exact absurd h (by simp)
  · rw [List.get?_set_eq, h]; rfl
  · rw [List.get?_set_eq, h]; rfl

lemma getShip_setShip_ne (m : MatchState) (id id' : ShipId) (x : Ship)
    (h : id ≠ id') : getShip (setShip m id x) id' = getShip m id' := by
  obtain ⟨f, i⟩ := id
  obtain ⟨f', i'⟩ := id'
  cases f <;> cases f' <;> simp only [getShip, setShip] <;> try rfl
  · have hne : i ≠ i' := fun hc => h (by rw [hc])
    exact List.get?_set_ne x _ hne
  · have hne : i ≠ i' := fun hc => h (by rw [hc])
    exact List.get?_set_ne x _ hne

lemma defenseFocusSpend_isDestroyed (t : Ship) (res : DiceResults) :
    ((defenseFocusSpend t res).1).isDestroyed = t.isDestroyed := by
  simp only [defenseFocusSpend]
  split_ifs <;> rfl

lemma damagePhase_isDestroyed_mono (t : Ship) (atk : DiceResults) (ev : Nat)
    (r : Nat → Nat) (pos : Nat) (h : t.isDestroyed = true) :
    ((damagePhase t atk ev r pos).1).isDestroyed = true := by
  simp only [damagePhase]
  split_ifs <;> first | rfl | exact h

lemma Attack_fst_isDestroyed (s t : Ship) (tid : ShipId) (r : Nat → Nat)
    (pos : Nat) : (Attack s t tid r pos).1.isDestroyed = s.isDestroyed := by
  have hA : (Attack s t tid r pos).1 =
      (attackFocusSpend (attackRerollPhase s tid
        (Roll s.attack (attackDieF r) pos) (attackDieF r) (pos + s.attack)).1
        (attackRerollPhase s tid (Roll s.attack (attackDieF r) pos)
          (attackDieF r) (pos + s.attack)).2.1).1 := by
    simp only [Attack, attackPhase]
    exact defend_fst _ _ _ _ _
  rw [hA]
  rcases attackFocusSpend_fst (attackRerollPhase s tid
      (Roll s.attack (attackDieF r) pos) (attackDieF r) (pos + s.attack)).1
      (attackRerollPhase s tid (Roll s.attack (attackDieF r) pos)
        (attackDieF r) (pos + s.attack)).2.1 with h2 | h2 <;>
    rcases attackRerollPhase_fst s tid (Roll s.attack (attackDieF r) pos)
      (attackDieF r) (pos + s.attack) with h1 | h1 <;>
    rw [h2, h1] <;> rfl

lemma Attack_snd_isDestroyed_mono (s t : Ship) (tid : ShipId) (r : Nat → Nat)
    (pos : Nat) (h : t.isDestroyed = true) :
    ((Attack s t tid r pos).2.1).isDestroyed = true := by
  simp only [Attack, defend]
  split_ifs
  · exact h
  · rw [defenseFocusSpend_isDestroyed]
    exact h
  · show ((defenseFocusSpend t _).1).isDestroyed = true
    rw [defenseFocusSpend_isDestroyed]
    exact h
  · apply damagePhase_isDestroyed_mono
    show ((defenseFocusSpend t _).1).isDestroyed = true
    rw [defenseFocusSpend_isDestroyed]
    exact h

lemma activate_monoD (act : Ship → Ship)
    (hact : ∀ s, (act s).isDestroyed = s.isDestroyed) (r : Nat → Nat)
    (mp : MatchState × Nat) (id : ShipId) :
    matchMonoD mp.1 (activate act r mp id).1 := by
  simp only [activate]
  split
  · exact matchMonoD_refl _
  · next ship hg =>
    have hm1 : matchMonoD mp.1 (setShip mp.1 id (act ship)) := by
      apply matchMonoD_setShip
      intro y hy hd
      rw [hg] at hy
      injection hy with he
      rw [hact, he]
      exact hd
    split
    · exact hm1
    · next ti hti =>
      split
      · exact hm1
      · next tgt htgt =>
        apply matchMonoD_trans hm1
        have hships : getShip (setShip mp.1 id (act ship)) id = some (act ship) :=
          getShip_setShip_self mp.1 id (act ship) ship hg
        have hm2 : matchMonoD (setShip mp.1 id (act ship))
            (setShip (setShip mp.1 id (act ship)) id
              (Attack (act ship) tgt (enemyFaction ship.faction, ti) r mp.2).1) := by
          apply matchMonoD_setShip
          intro y hy hd
          rw [hships] at hy
          injection hy with he
          rw [Attack_fst_isDestroyed, he]
          exact hd
        apply matchMonoD_trans hm2
        apply matchMonoD_setShip
        intro y hy hd
        by_cases hid : id = ((enemyFaction ship.faction, ti) : ShipId)
        · rw [← hid] at hy
          rw [getShip_setShip_self _ id _ (act ship) hships] at hy
          injection hy with he
          apply Attack_snd_isDestroyed_mono
          have htgt2 : tgt = act ship := by
            rw [← hid, hships] at htgt
            injection htgt with he2
            exact he2.symm
          rw [htgt2, hact]
          rw [← he] at hd
          rw [Attack_fst_isDestroyed, hact] at hd
          exact hd
        · rw [getShip_setShip_ne _ id _ _ hid, htgt] at hy
          injection hy with he
          apply Attack_snd_isDestroyed_mono
          rw [he]
          exact hd

lemma runLevel_monoD (act : Ship → Ship)
    (hact : ∀ s, (act s).isDestroyed = s.isDestroyed) (r : Nat → Nat)
    (ids : List ShipId) : ∀ mp, matchMonoD mp.1 (runLevel act r ids mp).1 := by
  induction ids with
  | nil => exact fun mp => matchMonoD_refl _
  | cons id rest ih =>
    intro mp
    exact matchMonoD_trans (activate_monoD act hact r mp id) (ih (activate act r mp id))

lemma listMonoD_map_pres (l : List Ship) (g : Ship → Ship)
    (hg : ∀ s, (g s).isDestroyed = s.isDestroyed) : listMonoD l (l.map g) := by
  refine ⟨(List.length_map l g).symm, fun i s s' h1 h2 hd => ?_⟩
  rw [List.get?_map, h1] at h2
  injection h2 with he
  rw [← he, hg]
  exact hd

lemma gatherLevel_monoD (m : MatchState) (ps : Nat) :
    matchMonoD m (gatherLevel m ps).1 := by
  refine ⟨listMonoD_refl _, ?_⟩
  apply listMonoD_map_pres
  intro s
  split_ifs <;> rfl

lemma foldl_monoD {β : Type} (F : (MatchState × Nat) → β → (MatchState × Nat))
    (hF : ∀ mp b, matchMonoD mp.1 (F mp b).1) :
    ∀ (ls : List β) (mp : MatchState × Nat), matchMonoD mp.1 (ls.foldl F mp).1 := by
  intro ls
  induction ls with
  | nil => exact fun mp => matchMonoD_refl _
  | cons b rest ih =>
    intro mp
    exact matchMonoD_trans (hF mp b) (ih (F mp b))

lemma performCombatRound_monoD (act : Ship → Ship)
    (hact : ∀ s, (act s).isDestroyed = s.isDestroyed) (r : Nat → Nat)
    (m : MatchState) (pos : Nat) :
    matchMonoD m (performCombatRound act r m pos).1 := by
  simp only [performCombatRound]
  exact foldl_monoD _
    (fun mp ps => matchMonoD_trans (gatherLevel_monoD mp.1 ps)
      (runLevel_monoD act hact r (gatherLevel mp.1 ps).2 ((gatherLevel mp.1 ps).1, mp.2)))
    psLevels (m, pos)

lemma aliveCount_monoD : ∀ (l l' : List Ship), listMonoD l l' →
    aliveCount l' ≤ aliveCount l := by
  intro l
  induction l with
  | nil =>
    intro l' h
    have hnil : l' = [] := List.length_eq_zero.mp h.1.symm
    rw [hnil]
  | cons a tl ih =>
    intro l' h
    cases l' with
    | nil => exact absurd h.1 (by simp)
    | cons a' tl' =>
      have hrel : relD a a' := h.2 0 a a' rfl rfl
      have htl : listMonoD tl tl' := by
        refine ⟨by have hlen := h.1; simpa using hlen, fun i s s' h1 h2 => ?_⟩
        exact h.2 (i + 1) s s' h1 h2
      have htlle := ih tl' htl
      simp only [aliveCount, List.countP_cons] at htlle ⊢
      cases hda : a.isDestroyed with
      | false =>
        cases hda' : a'.isDestroyed with
        | false => simp [hda, hda']; try omega
        | true => simp [hda, hda']; try omega
      | true =>
        have hda2 : a'.isDestroyed = true := hrel hda
        simp [hda, hda2]; try omega

lemma matchMonoD_getShip {m m' : MatchState} (h : matchMonoD m m') (id : ShipId)
    (s : Ship) (hg : getShip m id = some s) (hd : s.isDestroyed = true) :
    ∃ s', getShip m' id = some s' ∧ s'.isDestroyed = true := by
  obtain ⟨f, i⟩ := id
  cases f with
  | NEITHER => simp [getShip] at hg
  | REBELS =>
    have hl := h.1
    simp only [getShip] at hg ⊢
    have hlt : i < m'.rebels.length := by
      obtain ⟨hlt, _⟩ := List.get?_eq_some.mp hg
      rw [← hl.1]
      exact hlt
    cases hg' : m'.rebels.get? i with
    | none => exact absurd (List.get?_eq_none.mp hg') (by omega)
    | some s' => exact ⟨s', rfl, hl.2 i s s' hg hg' hd⟩
  | EMPIRE =>
    have hl := h.2
    simp only [getShip] at hg ⊢
    have hlt : i < m'.empires.length := by
      obtain ⟨hlt, _⟩ := List.get?_eq_some.mp hg
      rw [← hl.1]
      exact hlt
    cases hg' : m'.empires.get? i with
    | none => exact absurd (List.get?_eq_none.mp hg') (by omega)
    | some s' => exact ⟨s', rfl, hl.2 i s s' hg hg' hd⟩

lemma idxWhere_mem (l : List Ship) (p : Ship → Bool) (i : Nat)
    (h : i ∈ idxWhere l p) : ∃ s, l.get? i = some s ∧ p s = true := by
  simp only [idxWhere, List.mem_filter, List.mem_range] at h
  obtain ⟨hlt, hp⟩ := h
  cases hg : l.get? i with
  | none =>
    rw [hg] at hp
    exact Bool.noConfusion hp
  | some s =>
    rw [hg] at hp
    exact ⟨s, rfl, hp⟩

/-- Claim C2 (amended): destroyed ships are excluded whenever a target is
selected and whenever the combatant list of a priority level is gathered,
and destruction is permanent across a whole round (when the action hook
preserves the destroyed flag); the exception forced by the counterexample
is a ship destroyed after the combatant list of its level was gathered,
which still activates within that level. -/
theorem c2_destroyed_exclusion :
    (∀ l j, firstAliveIdx l = some j →
      ∃ s, l.get? j = some s ∧ s.isDestroyed = false) ∧
    (∀ m ps id, id ∈ (gatherLevel m ps).2 →
      ∃ s, getShip (gatherLevel m ps).1 id = some s ∧ s.isDestroyed = false) ∧
    (∀ act r m pos id s, (∀ x, (act x).isDestroyed = x.isDestroyed) →
      getShip m id = some s → s.isDestroyed = true →
      ∃ s', getShip (performCombatRound act r m pos).1 id = some s' ∧
        s'.isDestroyed = true) := by
  refine ⟨?_, ?_, ?_⟩
  · intro l
    induction l with
    | nil => intro j h; exact absurd h (by simp [firstAliveIdx])
    | cons a rest ih =>
      intro j h
      simp only [firstAliveIdx] at h
      split_ifs at h with hd
      · cases hf : firstAliveIdx rest with
        | none => rw [hf] at h; exact absurd h (by simp)
        | some j' =>
          rw [hf] at h
          simp only [Option.map_some'] at h
          injection h with he
          obtain ⟨s, hs, hds⟩ := ih j' hf
          refine ⟨s, ?_, hds⟩
          rw [← he]
          simpa using hs
      · injection h with he
        rw [← he]
        exact ⟨a, rfl, by rwa [Bool.not_eq_true] at hd⟩
  · intro m ps id hmem
    simp only [gatherLevel] at hmem ⊢
    rcases List.mem_append.mp hmem with hr | he
    · obtain ⟨i, hi, heq⟩ := List.mem_map.mp hr
      obtain ⟨s, hs, hp⟩ := idxWhere_mem _ _ _ hi
      refine ⟨s, ?_, ?_⟩
      · rw [← heq]
        simpa [getShip] using hs
      · rw [Bool.and_eq_true] at hp
        rw [← Bool.not_eq_true']
        exact hp.2
    · obtain ⟨i, hi, heq⟩ := List.mem_map.mp he
      obtain ⟨s, hs, hp⟩ := idxWhere_mem _ _ _ hi
      refine ⟨s, ?_, ?_⟩
      · rw [← heq]
        simpa [getShip] using hs
      · rw [Bool.and_eq_true] at hp
        rw [← Bool.not_eq_true']
        exact hp.2
  · intro act r m pos id s hact hg hd
    exact matchMonoD_getShip (performCombatRound_monoD act hact r m pos) id s hg hd

theorem c2_destroyed_exclusion_witness :
    ∃ s', getShip (performCombatRound noAction r0 wreckMatch 0).1
      (Faction.REBELS, 0) = some s' ∧ s'.isDestroyed = true :=
  c2_destroyed_exclusion.2.2 noAction r0 wreckMatch 0 (Faction.REBELS, 0)
    wreckShip (fun _ => rfl) rfl rfl

/-- Claim C2 counterexample: in levelMatch both ships share priority 5;
the rebel destroys the imperial first, yet the imperial — already
destroyed — still activates in the same level and deals 1 hull damage to
the rebel (hull 10 drops to 9): a ship destroyed partway through its own
priority level DOES still invoke Attack. -/
theorem c2_destroyed_ship_still_attacks :
    ((performCombatRound Focus r4 levelMatch 0).1.empires.get? 0).map
      Ship.isDestroyed = some true ∧
    ((performCombatRound Focus r4 levelMatch 0).1.rebels.get? 0).map
      Ship.hull = some 9 := by decide

/-- Claim C8 (amended): a combat round never increases the survivor count
of either faction (when the action hook preserves the destroyed flag),
but Play is NOT guaranteed to terminate for every die sequence. -/
theorem c8_survivors_monotone (act : Ship → Ship) (r : Nat → Nat)
    (m : MatchState) (pos : Nat)
    (hact : ∀ s, (act s).isDestroyed = s.isDestroyed) :
    aliveCount (performCombatRound act r m pos).1.rebels ≤ aliveCount m.rebels ∧
    aliveCount (performCombatRound act r m pos).1.empires ≤ aliveCount m.empires := by
  have h := performCombatRound_monoD act hact r m pos
  exact ⟨aliveCount_monoD _ _ h.1, aliveCount_monoD _ _ h.2⟩

theorem c8_survivors_monotone_witness :
    aliveCount (performCombatRound Focus r0 passiveMatch 0).1.rebels ≤
      aliveCount passiveMatch.rebels ∧
    aliveCount (performCombatRound Focus r0 passiveMatch 0).1.empires ≤
      aliveCount passiveMatch.empires :=
  c8_survivors_monotone Focus r0 passiveMatch 0 (fun _ => rfl)

/-- Claim C8 counterexample: Play does not terminate for every match and
die sequence.  In passiveMatch no ship rolls any die, so every round
returns both ships alive and no result: the loop (for result == nil) in
Play never exits. -/
theorem c8_play_need_not_terminate :
    ¬ PlayTerminates noAction r0 (passiveMatch, 0) := by
  have hstep : playStep noAction r0 (passiveMatch, 0) = (passiveMatch, 0) := by decide
  have hiter : ∀ n, playSteps noAction r0 (passiveMatch, 0) n = (passiveMatch, 0) := by
    intro n
    induction n with
    | zero => rfl
    | succ k ih => rw [playSteps, ih, hstep]
  rintro ⟨n, hn⟩
  rw [roundResultAt, hiter n] at hn
  exact absurd hn (by decide)

set_option maxRecDepth 4000 in
/-- Claim C1 (amended): tokens are NOT reset at round end.  CleanUp
(which zeroes both token counts) is never invoked by the round sequence:
with the focus action of the driver, unspent focus tokens accumulate
across rounds — after two full rounds of the Play loop each ship holds 2
focus tokens, where a per-round reset would leave at most 1. -/
theorem c1_tokens_carry_over :
    (∀ s : Ship, (CleanUp s).focusTokens = 0 ∧ (CleanUp s).evadeTokens = 0) ∧
    ((playSteps Focus r0 (passiveMatch, 0) 2).1.rebels.get? 0).map
      Ship.focusTokens = some 2 ∧
    ((playSteps Focus r0 (passiveMatch, 0) 2).1.empires.get? 0).map
      Ship.focusTokens = some 2 :=
  ⟨fun _ => ⟨rfl, rfl⟩, by decide, by decide⟩

/-- Claim C1 counterexample: at the end of a combat round (here one that
returns no result, so the match continues into the next round) both
ships still hold the focus token granted by the pre-attack action: token
counts are NOT reset to zero at round end. -/
theorem c1_tokens_not_reset :
    ((performCombatRound Focus r0 passiveMatch 0).1.rebels.get? 0).map
      Ship.focusTokens = some 1 ∧
    ((performCombatRound Focus r0 passiveMatch 0).1.empires.get? 0).map
      Ship.focusTokens = some 1 ∧
    (performCombatRound Focus r0 passiveMatch 0).2.2 = none := by decide
